import Mathlib

/-
Verification of the state-coordination core of a minimal TCP chat server
(src/main.go).

The model is a shallow embedding of the `server` goroutine: an explicit
state (the `clients` map and the `bannedClients` set) together with a
transition function `handle` that processes one `Message` (event) at a
time, exactly as the Go `switch` does, and returns the updated state plus
the list of externally observable effects (socket writes, socket closes,
log lines) in the order the Go code performs them.

Modelling conventions:
- time is modelled as the rationals, in seconds; the Go zero value of
  `time.Time` is the rational 0, and `time.Now()` becomes an explicit
  `now` parameter of the `NewMessage` event.  The Go code calls
  `time.Now()` a second time at lines 109 and 114 when storing
  `LastMessage`; within one event the clock reads are identified, so the
  single `now` stands for all of them.
- a connection is identified by its remote address (the spec's stable
  identity); writes and closes are recorded against that address.
- socket write payloads are modelled structurally, one constructor per
  distinct format string of the Go code, carrying the data the Go code
  interpolates; the broadcast payload carries the raw message text.
- the `clients` Go map is an association list with unique keys; insertion
  replaces, deletion filters, iteration order is irrelevant to the claims.
-/

namespace TcpChat

abbrev Addr := String

/-- `TimeoutDuration` constant from src/main.go line 16 (seconds). -/
def TimeoutDuration : ℚ := 5

/-- `MessageDebounce` constant from src/main.go line 17 (seconds). -/
def MessageDebounce : ℚ := 1

/-- The `Client` record of src/main.go lines 34-39, without the raw
connection handle (the record is keyed by, and writes are addressed to,
the remote address). -/
structure Client where
  lastMessage : ℚ
  timedOut : Bool
  strikes : Nat
deriving DecidableEq

/-- One constructor per distinct byte string the server writes to a
client socket (src/main.go lines 62, 90, 100, 110, 118). -/
inductive Payload where
  | welcome
  | timedOutNotice (remaining : ℚ)
  | strikeNotice (strikes : Nat) (wait : ℚ)
  | banNotice
  | chat (text : String)
deriving DecidableEq

/-- Externally observable actions of one `server` loop iteration, in
program order: socket writes, socket closes, and log lines. -/
inductive Effect where
  | write (a : Addr) (p : Payload)
  | close (a : Addr)
  | logClientConnected (a : Addr)
  | logClientDisconnected (a : Addr)
  | logUnknownClient (a : Addr)
  | logUnbanned (a : Addr)
  | logStillBanned (a : Addr)
  | logStrike (a : Addr) (strikes : Nat)
  | logSendMessage (a : Addr) (text : String)
deriving DecidableEq

/-- The events consumed by the `server` goroutine (the `Message` struct of
src/main.go lines 28-32, with the address standing for the connection and
the clock reading attached to `NewMessage`). -/
inductive Event where
  | clientConnected (a : Addr)
  | clientDisconnected (a : Addr)
  | newMessage (a : Addr) (text : String) (now : ℚ)
deriving DecidableEq

/-- The mutable state owned by the `server` goroutine: the `clients` map
(src/main.go line 42) and the `bannedClients` set (line 43). -/
structure ServerState where
  clients : List (Addr × Client)
  bannedClients : List Addr
deriving DecidableEq

/-- The initial state of the `server` goroutine: both containers empty. -/
def ServerState.init : ServerState := ⟨[], []⟩

/-- Go map lookup `clients[addr]`. -/
def lookupClient (m : List (Addr × Client)) (a : Addr) : Option Client :=
  match m with
  | [] => none
  | (b, c) :: rest => if b = a then some c else lookupClient rest a

/-- Go map deletion `delete(clients, addr)`. -/
def eraseClient (m : List (Addr × Client)) (a : Addr) : List (Addr × Client) :=
  m.filter (fun p => p.1 ≠ a)

/-- Go map insertion `clients[addr] = c` (replaces any existing entry). -/
def setClient (m : List (Addr × Client)) (a : Addr) (c : Client) :
    List (Addr × Client) :=
  (a, c) :: eraseClient m a

/-- The tail of the `NewMessage` case after the timeout stage
(src/main.go lines 95-119): the debounce check, strike escalation /
ban, and the broadcast.  `client` is the record as left by the timeout
stage (its `timedOut` flag already cleared when the timeout expired) and
`passed` is the elapsed time computed at line 81, which the Go code does
not recompute after clearing the flag. -/
def debounceAndBroadcast (s : ServerState) (a : Addr) (text : String)
    (now : ℚ) (client : Client) (passed : ℚ) : ServerState × List Effect :=
  if passed < MessageDebounce then
    let client := { client with strikes := client.strikes + 1 }
    if 3 ≤ client.strikes then
      (⟨eraseClient s.clients a, a :: s.bannedClients⟩,
       [Effect.write a Payload.banNotice, Effect.close a])
    else
      let client := { client with timedOut := true, lastMessage := now }
      ({ s with clients := setClient s.clients a client },
       [Effect.logStrike a client.strikes,
        Effect.write a (Payload.strikeNotice client.strikes TimeoutDuration)])
  else
    let s' : ServerState :=
      { s with clients := setClient s.clients a { client with lastMessage := now } }
    (s', Effect.logSendMessage a text ::
      s'.clients.map (fun p => Effect.write p.1 (Payload.chat text)))

/-- The `NewMessage` case of src/main.go lines 70-119. -/
def handleNewMessage (s : ServerState) (a : Addr) (text : String) (now : ℚ) :
    ServerState × List Effect :=
  match lookupClient s.clients a with
  | none => (s, [Effect.close a, Effect.logUnknownClient a])
  | some client =>
    let passed := now - client.lastMessage
    if client.timedOut then
      if TimeoutDuration ≤ passed then
        let r := debounceAndBroadcast s a text now { client with timedOut := false } passed
        (r.1, Effect.logUnbanned a :: r.2)
      else
        (s, [Effect.logStillBanned a,
             Effect.write a (Payload.timedOutNotice (TimeoutDuration - passed))])
    else
      debounceAndBroadcast s a text now client passed

/-- One iteration of the `server` loop of src/main.go lines 45-121:
dispatch on the event type. -/
def handle (s : ServerState) (e : Event) : ServerState × List Effect :=
  match e with
  | Event.clientConnected a =>
    if a ∈ s.bannedClients then
      (s, [Effect.close a])
    else
      let fresh : Client := { lastMessage := 0, timedOut := false, strikes := 0 }
      ({ s with clients := setClient s.clients a fresh },
       [Effect.write a Payload.welcome, Effect.logClientConnected a])
  | Event.clientDisconnected a =>
    ({ s with clients := eraseClient s.clients a },
     [Effect.logClientDisconnected a])
  | Event.newMessage a text now => handleNewMessage s a text now

/-- Run the server loop over a list of events, keeping only the state. -/
def run (s : ServerState) (es : List Event) : ServerState :=
  es.foldl (fun t e => (handle t e).1) s

/-- A state is reachable when some event sequence produces it from the
empty initial state. -/
def Reachable (s : ServerState) : Prop :=
  ∃ es : List Event, run ServerState.init es = s

/-- The debounce-violation condition of the claims: the timeout stage
does not stop the event (either the client is not timed out, or the
timeout has expired) and the elapsed time is below the debounce. -/
def debounceViolation (c : Client) (now : ℚ) : Prop :=
  (c.timedOut = false ∨ TimeoutDuration ≤ now - c.lastMessage) ∧
    now - c.lastMessage < MessageDebounce

/-! ### Basic lemmas about the map operations -/

theorem mem_eraseClient {m : List (Addr × Client)} {a : Addr} {p : Addr × Client} :
    p ∈ eraseClient m a ↔ p ∈ m ∧ p.1 ≠ a := by
  simp [eraseClient, List.mem_filter]

theorem lookupClient_mem {m : List (Addr × Client)} {a : Addr} {c : Client}
    (h : lookupClient m a = some c) : (a, c) ∈ m := by
  induction m with
  | nil => simp [lookupClient] at h
  | cons q rest ih =>
    obtain ⟨b, d⟩ := q
    by_cases hb : b = a
    · subst hb
      simp [lookupClient] at h
      subst h
      exact List.mem_cons_self _ _
    · rw [lookupClient, if_neg hb] at h
      exact List.mem_cons_of_mem _ (ih h)

theorem lookupClient_eraseClient_self (m : List (Addr × Client)) (a : Addr) :
    lookupClient (eraseClient m a) a = none := by
  induction m with
  | nil => rfl
  | cons q rest ih =>
    obtain ⟨b, d⟩ := q
    by_cases hb : b = a
    · subst hb
      simpa [eraseClient] using ih
    · simpa [eraseClient, lookupClient, hb] using ih

theorem lookupClient_setClient_self (m : List (Addr × Client)) (a : Addr) (c : Client) :
    lookupClient (setClient m a c) a = some c := by
  simp [setClient, lookupClient]

theorem eraseClient_of_lookup_none {m : List (Addr × Client)} {a : Addr}
    (h : lookupClient m a = none) : eraseClient m a = m := by
  induction m with
  | nil => rfl
  | cons q rest ih =>
    obtain ⟨b, d⟩ := q
    by_cases hb : b = a
    · subst hb
      simp [lookupClient] at h
    · rw [lookupClient, if_neg hb] at h
      simp [eraseClient, List.filter_cons, hb] at ih ⊢
      exact ih h

/-! ### Branch equations for the event handlers -/

theorem handle_connected_banned (s : ServerState) (a : Addr)
    (h : a ∈ s.bannedClients) :
    handle s (Event.clientConnected a) = (s, [Effect.close a]) := by
  simp [handle, h]

theorem handle_connected_ok (s : ServerState) (a : Addr)
    (h : a ∉ s.bannedClients) :
    handle s (Event.clientConnected a)
      = ({ s with clients := setClient s.clients a ⟨0, false, 0⟩ },
         [Effect.write a Payload.welcome, Effect.logClientConnected a]) := by
  simp [handle, h]

theorem handle_disconnected (s : ServerState) (a : Addr) :
    handle s (Event.clientDisconnected a)
      = ({ s with clients := eraseClient s.clients a },
         [Effect.logClientDisconnected a]) := rfl

theorem nm_unknown (s : ServerState) (a : Addr) (text : String) (now : ℚ)
    (h : lookupClient s.clients a = none) :
    handleNewMessage s a text now = (s, [Effect.close a, Effect.logUnknownClient a]) := by
  simp [handleNewMessage, h]

theorem nm_wait (s : ServerState) (a : Addr) (text : String) (now : ℚ) (c : Client)
    (h1 : lookupClient s.clients a = some c) (h2 : c.timedOut = true)
    (h3 : now - c.lastMessage < TimeoutDuration) :
    handleNewMessage s a text now
      = (s, [Effect.logStillBanned a,
             Effect.write a (Payload.timedOutNotice (TimeoutDuration - (now - c.lastMessage)))]) := by
  simp [handleNewMessage, h1, h2, not_le.mpr h3]

theorem nm_clear (s : ServerState) (a : Addr) (text : String) (now : ℚ) (c : Client)
    (h1 : lookupClient s.clients a = some c) (h2 : c.timedOut = true)
    (h3 : TimeoutDuration ≤ now - c.lastMessage) :
    handleNewMessage s a text now
      = ((debounceAndBroadcast s a text now { c with timedOut := false } (now - c.lastMessage)).1,
         Effect.logUnbanned a ::
           (debounceAndBroadcast s a text now { c with timedOut := false } (now - c.lastMessage)).2) := by
  simp [handleNewMessage, h1, h2, h3]

theorem nm_active (s : ServerState) (a : Addr) (text : String) (now : ℚ) (c : Client)
    (h1 : lookupClient s.clients a = some c) (h2 : c.timedOut = false) :
    handleNewMessage s a text now
      = debounceAndBroadcast s a text now c (now - c.lastMessage) := by
  simp [handleNewMessage, h1, h2]

theorem dab_strike (s : ServerState) (a : Addr) (text : String) (now : ℚ)
    (c : Client) (passed : ℚ)
    (h1 : passed < MessageDebounce) (h2 : c.strikes + 1 < 3) :
    debounceAndBroadcast s a text now c passed
      = ({ s with clients := setClient s.clients a ⟨now, true, c.strikes + 1⟩ },
         [Effect.logStrike a (c.strikes + 1),
          Effect.write a (Payload.strikeNotice (c.strikes + 1) TimeoutDuration)]) := by
  simp [debounceAndBroadcast, h1, not_le.mpr h2]

theorem dab_ban (s : ServerState) (a : Addr) (text : String) (now : ℚ)
    (c : Client) (passed : ℚ)
    (h1 : passed < MessageDebounce) (h2 : 3 ≤ c.strikes + 1) :
    debounceAndBroadcast s a text now c passed
      = (⟨eraseClient s.clients a, a :: s.bannedClients⟩,
         [Effect.write a Payload.banNotice, Effect.close a]) := by
  simp [debounceAndBroadcast, h1, h2]

theorem dab_broadcast (s : ServerState) (a : Addr) (text : String) (now : ℚ)
    (c : Client) (passed : ℚ) (h1 : MessageDebounce ≤ passed) :
    debounceAndBroadcast s a text now c passed
      = ({ s with clients := setClient s.clients a { c with lastMessage := now } },
         Effect.logSendMessage a text ::
           (setClient s.clients a { c with lastMessage := now }).map
             (fun p => Effect.write p.1 (Payload.chat text))) := by
  simp [debounceAndBroadcast, not_lt.mpr h1]

/-! ### The inductive state invariant -/

/-- The state invariant maintained by the server loop: every live record
is keyed by a non-banned address and carries at most 2 strikes, and the
map has at most one record per address. -/
def Inv (s : ServerState) : Prop :=
  (∀ p ∈ s.clients, p.1 ∉ s.bannedClients ∧ p.2.strikes ≤ 2) ∧
    s.clients.Pairwise (fun p q => p.1 ≠ q.1)

theorem inv_init : Inv ServerState.init := by
  constructor <;> simp [ServerState.init]

theorem pairwise_keys_setClient (m : List (Addr × Client)) (a : Addr) (c : Client)
    (h : m.Pairwise (fun p q => p.1 ≠ q.1)) :
    (setClient m a c).Pairwise (fun p q => p.1 ≠ q.1) := by
  rw [setClient]
  refine List.pairwise_cons.mpr ⟨?_, h.filter _⟩
  intro q hq he
  exact (mem_eraseClient.mp hq).2 he.symm

theorem inv_setClient {s : ServerState} {a : Addr} {c : Client} (h : Inv s)
    (ha : a ∉ s.bannedClients) (hc : c.strikes ≤ 2) :
    Inv { s with clients := setClient s.clients a c } := by
  obtain ⟨h1, h2⟩ := h
  refine ⟨?_, pairwise_keys_setClient _ _ _ h2⟩
  intro p hp
  rw [setClient] at hp
  rcases List.mem_cons.mp hp with rfl | hp
  · exact ⟨ha, hc⟩
  · exact h1 p (mem_eraseClient.mp hp).1

theorem inv_eraseClient {s : ServerState} (a : Addr) (h : Inv s) :
    Inv { s with clients := eraseClient s.clients a } := by
  obtain ⟨h1, h2⟩ := h
  refine ⟨?_, h2.filter _⟩
  intro p hp
  exact h1 p (mem_eraseClient.mp hp).1

theorem inv_ban {s : ServerState} (a : Addr) (h : Inv s) :
    Inv ⟨eraseClient s.clients a, a :: s.bannedClients⟩ := by
  obtain ⟨h1, h2⟩ := h
  refine ⟨?_, h2.filter _⟩
  intro p hp
  obtain ⟨hm, hne⟩ := mem_eraseClient.mp hp
  obtain ⟨hb, hs⟩ := h1 p hm
  refine ⟨?_, hs⟩
  intro hmem
  rcases List.mem_cons.mp hmem with he | he
  · exact hne he
  · exact hb he

theorem lookup_inv {s : ServerState} {a : Addr} {c : Client} (h : Inv s)
    (hl : lookupClient s.clients a = some c) :
    a ∉ s.bannedClients ∧ c.strikes ≤ 2 :=
  h.1 (a, c) (lookupClient_mem hl)

theorem inv_step (s : ServerState) (e : Event) (h : Inv s) :
    Inv (handle s e).1 := by
  cases e with
  | clientConnected a =>
    by_cases hb : a ∈ s.bannedClients
    · rw [handle_connected_banned s a hb]
      exact h
    · rw [handle_connected_ok s a hb]
      exact inv_setClient h hb (by norm_num)
  | clientDisconnected a =>
    rw [handle_disconnected]
    exact inv_eraseClient a h
  | newMessage a text now =>
    show Inv (handleNewMessage s a text now).1
    cases hl : lookupClient s.clients a with
    | none =>
      rw [nm_unknown s a text now hl]
      exact h
    | some c =>
      obtain ⟨hb, hs⟩ := lookup_inv h hl
      have dab_inv : ∀ c' : Client, c'.strikes = c.strikes →
          Inv (debounceAndBroadcast s a text now c' (now - c.lastMessage)).1 := by
        intro c' hc'
        by_cases hd : now - c.lastMessage < MessageDebounce
        · by_cases h3 : 3 ≤ c'.strikes + 1
          · rw [dab_ban s a text now c' _ hd h3]
            exact inv_ban a h
          · rw [dab_strike s a text now c' _ hd (not_le.mp h3)]
            exact inv_setClient h hb (by show c'.strikes + 1 ≤ 2; omega)
        · rw [dab_broadcast s a text now c' _ (not_lt.mp hd)]
          exact inv_setClient h hb (by show c'.strikes ≤ 2; omega)
      cases ht : c.timedOut with
      | false =>
        rw [nm_active s a text now c hl ht]
        exact dab_inv c rfl
      | true =>
        by_cases h5 : TimeoutDuration ≤ now - c.lastMessage
        · rw [nm_clear s a text now c hl ht h5]
          exact dab_inv { c with timedOut := false } rfl
        · rw [nm_wait s a text now c hl ht (not_le.mp h5)]
          exact h

theorem inv_run (es : List Event) (s : ServerState) (h : Inv s) :
    Inv (run s es) := by
  induction es generalizing s with
  | nil => exact h
  | cons e es ih => exact ih (handle s e).1 (inv_step s e h)

theorem reachable_inv {s : ServerState} (h : Reachable s) : Inv s := by
  obtain ⟨es, rfl⟩ := h
  exact inv_run es ServerState.init inv_init

/-! ### Monotonicity of the banned set -/

theorem banned_mono_step (s : ServerState) (e : Event) :
    s.bannedClients ⊆ (handle s e).1.bannedClients := by
  cases e with
  | clientConnected a =>
    by_cases hb : a ∈ s.bannedClients
    · rw [handle_connected_banned s a hb]
      exact fun x hx => hx
    · rw [handle_connected_ok s a hb]
      exact fun x hx => hx
  | clientDisconnected a =>
    rw [handle_disconnected]
    exact fun x hx => hx
  | newMessage a text now =>
    show s.bannedClients ⊆ (handleNewMessage s a text now).1.bannedClients
    cases hl : lookupClient s.clients a with
    | none =>
      rw [nm_unknown s a text now hl]
      exact fun x hx => hx
    | some c =>
      have dab_mono : ∀ (c' : Client) (passed : ℚ),
          s.bannedClients ⊆ (debounceAndBroadcast s a text now c' passed).1.bannedClients := by
        intro c' passed
        by_cases hd : passed < MessageDebounce
        · by_cases h3 : 3 ≤ c'.strikes + 1
          · rw [dab_ban s a text now c' passed hd h3]
            exact List.subset_cons_self _ _
          · rw [dab_strike s a text now c' passed hd (not_le.mp h3)]
            exact fun x hx => hx
        · rw [dab_broadcast s a text now c' passed (not_lt.mp hd)]
          exact fun x hx => hx
      cases ht : c.timedOut with
      | false =>
        rw [nm_active s a text now c hl ht]
        exact dab_mono c _
      | true =>
        by_cases h5 : TimeoutDuration ≤ now - c.lastMessage
        · rw [nm_clear s a text now c hl ht h5]
          exact dab_mono _ _
        · rw [nm_wait s a text now c hl ht (not_le.mp h5)]
          exact fun x hx => hx

theorem banned_mono_run (s : ServerState) (es : List Event) :
    s.bannedClients ⊆ (run s es).bannedClients := by
  induction es generalizing s with
  | nil => exact fun x hx => hx
  | cons e es ih =>
    exact fun x hx => ih (handle s e).1 (banned_mono_step s e hx)

/-! ### Additional map lemmas -/

theorem lookupClient_eraseClient_ne (m : List (Addr × Client)) (a b : Addr)
    (h : a ≠ b) : lookupClient (eraseClient m b) a = lookupClient m a := by
  induction m with
  | nil => rfl
  | cons q rest ih =>
    obtain ⟨d, c⟩ := q
    by_cases hd : d = b
    · subst hd
      have hna : ¬d = a := fun he => h he.symm
      simp only [eraseClient, List.filter_cons] at ih ⊢
      simp only [lookupClient, if_neg hna]
      simpa using ih
    · simp only [eraseClient, List.filter_cons] at ih ⊢
      by_cases hda : d = a
      · subst hda
        simp [lookupClient, h, hd]
      · simpa [hd, hda, lookupClient] using ih

theorem lookupClient_setClient_ne (m : List (Addr × Client)) (a b : Addr)
    (c : Client) (h : a ≠ b) :
    lookupClient (setClient m b c) a = lookupClient m a := by
  rw [setClient, lookupClient, if_neg (fun he => h he.symm)]
  exact lookupClient_eraseClient_ne m a b h

theorem eraseClient_cons_self (m : List (Addr × Client)) (a : Addr) (c : Client) :
    eraseClient ((a, c) :: m) a = eraseClient m a := by
  simp [eraseClient, List.filter_cons]

theorem eraseClient_idem (m : List (Addr × Client)) (a : Addr) :
    eraseClient (eraseClient m a) a = eraseClient m a := by
  induction m with
  | nil => rfl
  | cons q rest ih =>
    obtain ⟨d, c⟩ := q
    by_cases hd : d = a
    · subst hd
      simp only [eraseClient, List.filter_cons] at ih ⊢
      simp
    · simp only [eraseClient, List.filter_cons] at ih ⊢
      simp [hd]

theorem setClient_setClient (m : List (Addr × Client)) (a : Addr) (c d : Client) :
    setClient (setClient m a c) a d = setClient m a d := by
  rw [setClient, setClient, setClient, eraseClient_cons_self, eraseClient_idem]

/-! ### Claim theorems -/

/-- C1: an address in `bannedClients` stays banned across any further
event sequence (no operation removes entries), and a `Connected` event
for a banned address returns the state unchanged (no record created, no
other state change) with the connection closed as the only effect. -/
theorem c1_ban_is_absorbing (s : ServerState) (a : Addr) (es : List Event)
    (h : a ∈ s.bannedClients) :
    a ∈ (run s es).bannedClients ∧
      handle (run s es) (Event.clientConnected a)
        = (run s es, [Effect.close a]) := by
  have hmem : a ∈ (run s es).bannedClients := banned_mono_run s es h
  exact ⟨hmem, handle_connected_banned _ a hmem⟩

theorem c1_ban_is_absorbing_witness :
    "1.2.3.4:5" ∈ (run ⟨[], ["1.2.3.4:5"]⟩
        [Event.clientConnected "6.7.8.9:1"]).bannedClients ∧
      handle (run ⟨[], ["1.2.3.4:5"]⟩ [Event.clientConnected "6.7.8.9:1"])
          (Event.clientConnected "1.2.3.4:5")
        = (run ⟨[], ["1.2.3.4:5"]⟩ [Event.clientConnected "6.7.8.9:1"],
           [Effect.close "1.2.3.4:5"]) :=
  c1_ban_is_absorbing ⟨[], ["1.2.3.4:5"]⟩ "1.2.3.4:5"
    [Event.clientConnected "6.7.8.9:1"] (by simp)

/-- C7: in every reachable state, no address that is a key of `clients`
is in `bannedClients`, and `clients` holds at most one record per
address. -/
theorem c7_client_keys_not_banned_and_unique (s : ServerState)
    (h : Reachable s) :
    (∀ p ∈ s.clients, p.1 ∉ s.bannedClients) ∧
      s.clients.Pairwise (fun p q => p.1 ≠ q.1) := by
  obtain ⟨h1, h2⟩ := reachable_inv h
  exact ⟨fun p hp => (h1 p hp).1, h2⟩

theorem c7_client_keys_not_banned_and_unique_witness :
    (∀ p ∈ (run ServerState.init [Event.clientConnected "a"]).clients,
        p.1 ∉ (run ServerState.init [Event.clientConnected "a"]).bannedClients) ∧
      (run ServerState.init
          [Event.clientConnected "a"]).clients.Pairwise (fun p q => p.1 ≠ q.1) :=
  c7_client_keys_not_banned_and_unique _ ⟨[Event.clientConnected "a"], rfl⟩

/-- C8: a `NewMessage` from a live client that is timed out with elapsed
time below `TimeoutDuration` produces exactly a notice carrying the
remaining wait `TimeoutDuration` minus elapsed (plus the corresponding
log line), no broadcast, and leaves the state completely unchanged. -/
theorem c8_still_timed_out_frame (s : ServerState) (a : Addr)
    (text : String) (now : ℚ) (c : Client)
    (h1 : lookupClient s.clients a = some c) (h2 : c.timedOut = true)
    (h3 : now - c.lastMessage < TimeoutDuration) :
    handleNewMessage s a text now
      = (s, [Effect.logStillBanned a,
             Effect.write a
               (Payload.timedOutNotice (TimeoutDuration - (now - c.lastMessage)))]) :=
  nm_wait s a text now c h1 h2 h3

theorem c8_still_timed_out_frame_witness :
    handleNewMessage ⟨[("a", ⟨2, true, 1⟩)], []⟩ "a" "hi" 3
      = (⟨[("a", ⟨2, true, 1⟩)], []⟩,
         [Effect.logStillBanned "a",
          Effect.write "a" (Payload.timedOutNotice (TimeoutDuration - ((3 : ℚ) - 2)))]) :=
  c8_still_timed_out_frame ⟨[("a", ⟨2, true, 1⟩)], []⟩ "a" "hi" 3 ⟨2, true, 1⟩
    (by simp [lookupClient]) rfl (by norm_num [TimeoutDuration])

/-- C9: a `Disconnected` event removes the record for the address if
present, is a no-op when absent, leaves the banned set untouched, and a
subsequent `NewMessage` for that address is handled as unknown-client:
connection closed, local diagnostic reported, state unchanged. -/
theorem c9_disconnect_cleanup (s : ServerState) (a : Addr)
    (text : String) (now : ℚ) :
    (handle s (Event.clientDisconnected a)).1.clients = eraseClient s.clients a ∧
    (handle s (Event.clientDisconnected a)).1.bannedClients = s.bannedClients ∧
    lookupClient (handle s (Event.clientDisconnected a)).1.clients a = none ∧
    (lookupClient s.clients a = none →
      (handle s (Event.clientDisconnected a)).1 = s) ∧
    handleNewMessage (handle s (Event.clientDisconnected a)).1 a text now
      = ((handle s (Event.clientDisconnected a)).1,
         [Effect.close a, Effect.logUnknownClient a]) := by
  rw [handle_disconnected]
  refine ⟨rfl, rfl, lookupClient_eraseClient_self s.clients a, ?_, ?_⟩
  · intro h
    cases s
    simp [eraseClient_of_lookup_none h]
  · exact nm_unknown _ a text now (lookupClient_eraseClient_self s.clients a)

theorem c9_disconnect_cleanup_witness :
    (handle ⟨[("a", ⟨1, false, 0⟩)], []⟩
        (Event.clientDisconnected "a")).1.clients
      = eraseClient [("a", ⟨1, false, 0⟩)] "a" ∧
    (handle ⟨[("a", ⟨1, false, 0⟩)], []⟩
        (Event.clientDisconnected "a")).1.bannedClients = [] ∧
    lookupClient (handle ⟨[("a", ⟨1, false, 0⟩)], []⟩
        (Event.clientDisconnected "a")).1.clients "a" = none ∧
    (lookupClient [("a", ⟨1, false, 0⟩)] "a" = none →
      (handle ⟨[("a", ⟨1, false, 0⟩)], []⟩
          (Event.clientDisconnected "a")).1 = ⟨[("a", ⟨1, false, 0⟩)], []⟩) ∧
    handleNewMessage (handle ⟨[("a", ⟨1, false, 0⟩)], []⟩
        (Event.clientDisconnected "a")).1 "a" "hi" 2
      = ((handle ⟨[("a", ⟨1, false, 0⟩)], []⟩
            (Event.clientDisconnected "a")).1,
         [Effect.close "a", Effect.logUnknownClient "a"]) :=
  c9_disconnect_cleanup ⟨[("a", ⟨1, false, 0⟩)], []⟩ "a" "hi" 2

theorem dab_broadcast_lookup (s : ServerState) (a : Addr) (text : String)
    (now : ℚ) (c : Client) (passed : ℚ) (h1 : MessageDebounce ≤ passed) :
    lookupClient (debounceAndBroadcast s a text now c passed).1.clients a
      = some { c with lastMessage := now } := by
  rw [dab_broadcast s a text now c passed h1]
  exact lookupClient_setClient_self s.clients a _

theorem dab_broadcast_writes (s : ServerState) (a : Addr) (text : String)
    (now : ℚ) (c : Client) (passed : ℚ) (h1 : MessageDebounce ≤ passed) :
    ∀ p ∈ (debounceAndBroadcast s a text now c passed).1.clients,
      Effect.write p.1 (Payload.chat text)
        ∈ (debounceAndBroadcast s a text now c passed).2 := by
  rw [dab_broadcast s a text now c passed h1]
  intro p hp
  exact List.mem_cons_of_mem _ (List.mem_map_of_mem _ hp)

/-- C3: a `NewMessage` from a timed-out client with elapsed at least
`TimeoutDuration` clears the flag and evaluates the same message through
the debounce and broadcast stages in the same call; in particular when
elapsed is also at least `MessageDebounce` the message is broadcast to
every record in `clients` and the record ends not timed out with
`lastMessage = now`. -/
theorem c3_timeout_expiry_falls_through (s : ServerState) (a : Addr)
    (text : String) (now : ℚ) (c : Client)
    (h1 : lookupClient s.clients a = some c) (h2 : c.timedOut = true)
    (h3 : TimeoutDuration ≤ now - c.lastMessage) :
    handleNewMessage s a text now
      = ((debounceAndBroadcast s a text now ⟨c.lastMessage, false, c.strikes⟩
            (now - c.lastMessage)).1,
         Effect.logUnbanned a ::
           (debounceAndBroadcast s a text now ⟨c.lastMessage, false, c.strikes⟩
              (now - c.lastMessage)).2) ∧
    (MessageDebounce ≤ now - c.lastMessage →
      lookupClient (handleNewMessage s a text now).1.clients a
          = some ⟨now, false, c.strikes⟩ ∧
        ∀ p ∈ (handleNewMessage s a text now).1.clients,
          Effect.write p.1 (Payload.chat text) ∈ (handleNewMessage s a text now).2) := by
  have heq := nm_clear s a text now c h1 h2 h3
  refine ⟨heq, ?_⟩
  intro h4
  rw [heq]
  constructor
  · simpa using dab_broadcast_lookup s a text now ⟨c.lastMessage, false, c.strikes⟩
      (now - c.lastMessage) h4
  · intro p hp
    exact List.mem_cons_of_mem _
      (dab_broadcast_writes s a text now ⟨c.lastMessage, false, c.strikes⟩
        (now - c.lastMessage) h4 p (by simpa using hp))

theorem c3_timeout_expiry_falls_through_witness :
    handleNewMessage ⟨[("a", ⟨1, true, 1⟩)], []⟩ "a" "hi" 7
      = ((debounceAndBroadcast ⟨[("a", ⟨1, true, 1⟩)], []⟩ "a" "hi" 7
            ⟨1, false, 1⟩ ((7 : ℚ) - 1)).1,
         Effect.logUnbanned "a" ::
           (debounceAndBroadcast ⟨[("a", ⟨1, true, 1⟩)], []⟩ "a" "hi" 7
              ⟨1, false, 1⟩ ((7 : ℚ) - 1)).2) ∧
    (MessageDebounce ≤ (7 : ℚ) - 1 →
      lookupClient (handleNewMessage ⟨[("a", ⟨1, true, 1⟩)], []⟩ "a" "hi" 7).1.clients "a"
          = some ⟨7, false, 1⟩ ∧
        ∀ p ∈ (handleNewMessage ⟨[("a", ⟨1, true, 1⟩)], []⟩ "a" "hi" 7).1.clients,
          Effect.write p.1 (Payload.chat "hi")
            ∈ (handleNewMessage ⟨[("a", ⟨1, true, 1⟩)], []⟩ "a" "hi" 7).2) :=
  c3_timeout_expiry_falls_through ⟨[("a", ⟨1, true, 1⟩)], []⟩ "a" "hi" 7 ⟨1, true, 1⟩
    (by simp [lookupClient]) rfl (by norm_num [TimeoutDuration])

/-- C5: the first `NewMessage` after a successful `Connected` (fresh
record with the zero timestamp and no timeout) passes the debounce stage
and is broadcast, for any clock reading at least `MessageDebounce` past
the zero timestamp (which every wall-clock reading is, the Go zero
`time.Time` lying centuries in the past). -/
theorem c5_first_message_always_accepted (s : ServerState) (a : Addr)
    (text : String) (now : ℚ)
    (hb : a ∉ s.bannedClients) (hnow : MessageDebounce ≤ now) :
    handleNewMessage (handle s (Event.clientConnected a)).1 a text now
      = (⟨setClient s.clients a ⟨now, false, 0⟩, s.bannedClients⟩,
         Effect.logSendMessage a text ::
           (setClient s.clients a ⟨now, false, 0⟩).map
             (fun p => Effect.write p.1 (Payload.chat text))) := by
  have hstate : (handle s (Event.clientConnected a)).1
      = ⟨setClient s.clients a ⟨0, false, 0⟩, s.bannedClients⟩ := by
    rw [handle_connected_ok s a hb]
  rw [hstate]
  have hl : lookupClient
      (ServerState.clients ⟨setClient s.clients a ⟨0, false, 0⟩, s.bannedClients⟩) a
      = some ⟨0, false, 0⟩ :=
    lookupClient_setClient_self s.clients a _
  rw [nm_active ⟨setClient s.clients a ⟨0, false, 0⟩, s.bannedClients⟩
      a text now ⟨0, false, 0⟩ hl rfl]
  rw [dab_broadcast ⟨setClient s.clients a ⟨0, false, 0⟩, s.bannedClients⟩
      a text now ⟨0, false, 0⟩ _ (by simpa using hnow)]
  simp [setClient_setClient]

theorem c5_first_message_always_accepted_witness :
    handleNewMessage (handle ⟨[], []⟩ (Event.clientConnected "a")).1 "a" "hi" (10 ^ 10)
      = (⟨setClient [] "a" ⟨10 ^ 10, false, 0⟩, []⟩,
         Effect.logSendMessage "a" "hi" ::
           (setClient [] "a" ⟨10 ^ 10, false, 0⟩).map
             (fun p => Effect.write p.1 (Payload.chat "hi"))) :=
  c5_first_message_always_accepted ⟨[], []⟩ "a" "hi" (10 ^ 10)
    (by simp) (by norm_num [MessageDebounce])

/-- C6: when a `NewMessage` reaches the broadcast stage (the timeout
stage lets it through and the debounce check passes), the sender record
gets `lastMessage = now`, the banned set is unchanged, and the raw text
is written to every record currently in `clients`, including the
sender. -/
theorem c6_broadcast_includes_sender (s : ServerState) (a : Addr)
    (text : String) (now : ℚ) (c : Client)
    (h1 : lookupClient s.clients a = some c)
    (h2 : c.timedOut = false ∨ TimeoutDuration ≤ now - c.lastMessage)
    (h3 : MessageDebounce ≤ now - c.lastMessage) :
    (handleNewMessage s a text now).1.clients
        = setClient s.clients a ⟨now, false, c.strikes⟩ ∧
    (handleNewMessage s a text now).1.bannedClients = s.bannedClients ∧
    lookupClient (handleNewMessage s a text now).1.clients a
        = some ⟨now, false, c.strikes⟩ ∧
    (∀ p ∈ (handleNewMessage s a text now).1.clients,
        Effect.write p.1 (Payload.chat text) ∈ (handleNewMessage s a text now).2) ∧
    Effect.write a (Payload.chat text) ∈ (handleNewMessage s a text now).2 := by
  cases ht : c.timedOut with
  | false =>
    rw [nm_active s a text now c h1 ht, dab_broadcast s a text now c _ h3]
    refine ⟨by simp [ht], rfl, ?_, ?_, ?_⟩
    · simpa [ht] using lookupClient_setClient_self s.clients a
        { c with lastMessage := now }
    · intro p hp
      exact List.mem_cons_of_mem _ (List.mem_map_of_mem _ hp)
    · refine List.mem_cons_of_mem _ ?_
      have : (a, { c with lastMessage := now }) ∈
          setClient s.clients a { c with lastMessage := now } :=
        List.mem_cons_self _ _
      simpa using List.mem_map_of_mem
        (fun p => Effect.write p.1 (Payload.chat text)) this
  | true =>
    have h5 : TimeoutDuration ≤ now - c.lastMessage := by
      rcases h2 with h2 | h2
      · rw [ht] at h2
        cases h2
      · exact h2
    rw [nm_clear s a text now c h1 ht h5,
      dab_broadcast s a text now ⟨c.lastMessage, false, c.strikes⟩ _ h3]
    refine ⟨rfl, rfl, ?_, ?_, ?_⟩
    · simpa using lookupClient_setClient_self s.clients a ⟨now, false, c.strikes⟩
    · intro p hp
      exact List.mem_cons_of_mem _ (List.mem_cons_of_mem _ (List.mem_map_of_mem _ hp))
    · refine List.mem_cons_of_mem _ (List.mem_cons_of_mem _ ?_)
      have : (a, (⟨now, false, c.strikes⟩ : Client)) ∈
          setClient s.clients a ⟨now, false, c.strikes⟩ :=
        List.mem_cons_self _ _
      simpa using List.mem_map_of_mem
        (fun p => Effect.write p.1 (Payload.chat text)) this

theorem c6_broadcast_includes_sender_witness :
    (handleNewMessage ⟨[("a", ⟨1, false, 0⟩), ("b", ⟨2, false, 1⟩)], []⟩
        "a" "yo" 3).1.clients
        = setClient [("a", ⟨1, false, 0⟩), ("b", ⟨2, false, 1⟩)] "a" ⟨3, false, 0⟩ ∧
    (handleNewMessage ⟨[("a", ⟨1, false, 0⟩), ("b", ⟨2, false, 1⟩)], []⟩
        "a" "yo" 3).1.bannedClients = [] ∧
    lookupClient (handleNewMessage ⟨[("a", ⟨1, false, 0⟩), ("b", ⟨2, false, 1⟩)], []⟩
        "a" "yo" 3).1.clients "a" = some ⟨3, false, 0⟩ ∧
    (∀ p ∈ (handleNewMessage ⟨[("a", ⟨1, false, 0⟩), ("b", ⟨2, false, 1⟩)], []⟩
        "a" "yo" 3).1.clients,
        Effect.write p.1 (Payload.chat "yo")
          ∈ (handleNewMessage ⟨[("a", ⟨1, false, 0⟩), ("b", ⟨2, false, 1⟩)], []⟩
              "a" "yo" 3).2) ∧
    Effect.write "a" (Payload.chat "yo")
      ∈ (handleNewMessage ⟨[("a", ⟨1, false, 0⟩), ("b", ⟨2, false, 1⟩)], []⟩
          "a" "yo" 3).2 :=
  c6_broadcast_includes_sender ⟨[("a", ⟨1, false, 0⟩), ("b", ⟨2, false, 1⟩)], []⟩
    "a" "yo" 3 ⟨1, false, 0⟩ (by simp [lookupClient]) (Or.inl rfl)
    (by norm_num [MessageDebounce])

/-- C2: in `handleNewMessage`, the strike counter changes only when the
debounce-violation branch runs (elapsed below `MessageDebounce` after the
timeout stage let the event through), where it is incremented by one; and
when the incremented count reaches 3 the same event atomically adds the
address to the banned set, removes the record, and emits the ban notice
and the close, so no state with the address banned but a record present
is ever produced. -/
theorem c2_strike_increment_and_atomic_ban (s : ServerState) (a : Addr)
    (text : String) (now : ℚ) (c : Client)
    (h1 : lookupClient s.clients a = some c) :
    (¬ debounceViolation c now →
      ∀ c' : Client,
        lookupClient (handleNewMessage s a text now).1.clients a = some c' →
          c'.strikes = c.strikes) ∧
    (debounceViolation c now → c.strikes + 1 < 3 →
      lookupClient (handleNewMessage s a text now).1.clients a
        = some ⟨now, true, c.strikes + 1⟩) ∧
    (debounceViolation c now → 3 ≤ c.strikes + 1 →
      (handleNewMessage s a text now).1
          = ⟨eraseClient s.clients a, a :: s.bannedClients⟩ ∧
        a ∈ (handleNewMessage s a text now).1.bannedClients ∧
        lookupClient (handleNewMessage s a text now).1.clients a = none ∧
        Effect.write a Payload.banNotice ∈ (handleNewMessage s a text now).2 ∧
        Effect.close a ∈ (handleNewMessage s a text now).2) := by
  cases ht : c.timedOut with
  | false =>
    rw [nm_active s a text now c h1 ht]
    by_cases hd : now - c.lastMessage < MessageDebounce
    · have hv : debounceViolation c now := ⟨Or.inl ht, hd⟩
      by_cases h3 : 3 ≤ c.strikes + 1
      · rw [dab_ban s a text now c _ hd h3]
        refine ⟨fun hnv => absurd hv hnv, fun _ h3' => absurd h3 (by omega), ?_⟩
        intro _ _
        refine ⟨rfl, List.mem_cons_self _ _, lookupClient_eraseClient_self _ a, ?_, ?_⟩
        · simp
        · simp
      · rw [dab_strike s a text now c _ hd (not_le.mp h3)]
        refine ⟨fun hnv => absurd hv hnv, ?_, fun _ h3' => absurd h3' h3⟩
        intro _ _
        simpa using lookupClient_setClient_self s.clients a _
    · have hnv : ¬ debounceViolation c now := fun hv => hd hv.2
      rw [dab_broadcast s a text now c _ (not_lt.mp hd)]
      refine ⟨?_, fun hv _ => absurd hv hnv, fun hv _ => absurd hv hnv⟩
      intro _ c' hc'
      have hc'' : lookupClient
          (setClient s.clients a { c with lastMessage := now }) a = some c' := hc'
      rw [lookupClient_setClient_self] at hc''
      cases hc''
      rfl
  | true =>
    by_cases h5 : TimeoutDuration ≤ now - c.lastMessage
    · have hd : ¬ now - c.lastMessage < MessageDebounce := by
        rw [MessageDebounce]
        rw [TimeoutDuration] at h5
        intro hlt
        linarith
      rw [nm_clear s a text now c h1 ht h5,
        dab_broadcast s a text now ⟨c.lastMessage, false, c.strikes⟩ _ (not_lt.mp hd)]
      refine ⟨?_, fun hv _ => absurd hv.2 hd, fun hv _ => absurd hv.2 hd⟩
      intro _ c' hc'
      have hc'' : lookupClient (setClient s.clients a ⟨now, false, c.strikes⟩) a
          = some c' := hc'
      rw [lookupClient_setClient_self] at hc''
      cases hc''
      rfl
    · have hnv : ¬ debounceViolation c now := by
        intro hv
        rcases hv.1 with he | he
        · rw [ht] at he
          cases he
        · exact h5 he
      rw [nm_wait s a text now c h1 ht (not_le.mp h5)]
      refine ⟨?_, fun hv _ => absurd hv hnv, fun hv _ => absurd hv hnv⟩
      intro _ c' hc'
      have hc'' : lookupClient s.clients a = some c' := hc'
      rw [h1] at hc''
      cases hc''
      rfl

theorem c2_strike_increment_and_atomic_ban_witness :
    (¬ debounceViolation ⟨1, false, 2⟩ (3 / 2) →
      ∀ c' : Client,
        lookupClient (handleNewMessage ⟨[("a", ⟨1, false, 2⟩)], []⟩
            "a" "hi" (3 / 2)).1.clients "a" = some c' →
          c'.strikes = (⟨1, false, 2⟩ : Client).strikes) ∧
    (debounceViolation ⟨1, false, 2⟩ (3 / 2) → (⟨1, false, 2⟩ : Client).strikes + 1 < 3 →
      lookupClient (handleNewMessage ⟨[("a", ⟨1, false, 2⟩)], []⟩
          "a" "hi" (3 / 2)).1.clients "a"
        = some ⟨3 / 2, true, (⟨1, false, 2⟩ : Client).strikes + 1⟩) ∧
    (debounceViolation ⟨1, false, 2⟩ (3 / 2) → 3 ≤ (⟨1, false, 2⟩ : Client).strikes + 1 →
      (handleNewMessage ⟨[("a", ⟨1, false, 2⟩)], []⟩ "a" "hi" (3 / 2)).1
          = ⟨eraseClient [("a", ⟨1, false, 2⟩)] "a", "a" :: []⟩ ∧
        "a" ∈ (handleNewMessage ⟨[("a", ⟨1, false, 2⟩)], []⟩
            "a" "hi" (3 / 2)).1.bannedClients ∧
        lookupClient (handleNewMessage ⟨[("a", ⟨1, false, 2⟩)], []⟩
            "a" "hi" (3 / 2)).1.clients "a" = none ∧
        Effect.write "a" Payload.banNotice
          ∈ (handleNewMessage ⟨[("a", ⟨1, false, 2⟩)], []⟩ "a" "hi" (3 / 2)).2 ∧
        Effect.close "a"
          ∈ (handleNewMessage ⟨[("a", ⟨1, false, 2⟩)], []⟩ "a" "hi" (3 / 2)).2) :=
  c2_strike_increment_and_atomic_ban ⟨[("a", ⟨1, false, 2⟩)], []⟩ "a" "hi" (3 / 2)
    ⟨1, false, 2⟩ (by simp [lookupClient])

/-- After one `handle` step, any record flagged timed out either sat
unchanged in the previous state or had its timeout begin at the clock
reading of this very event (the strike branch stores `now` into
`lastMessage` when it sets the flag). -/
theorem timedOut_record_began_now (t : ServerState) (e : Event) (b : Addr)
    (c' : Client) (hl : lookupClient (handle t e).1.clients b = some c')
    (htO : c'.timedOut = true) :
    lookupClient t.clients b = some c' ∨
      ∃ tx tn, e = Event.newMessage b tx tn ∧ c'.lastMessage = tn := by
  cases e with
  | clientConnected d =>
    by_cases hb : d ∈ t.bannedClients
    · rw [handle_connected_banned t d hb] at hl
      exact Or.inl hl
    · rw [handle_connected_ok t d hb] at hl
      have hl' : lookupClient (setClient t.clients d ⟨0, false, 0⟩) b = some c' := hl
      by_cases hdb : b = d
      · subst hdb
        rw [lookupClient_setClient_self] at hl'
        cases hl'
        cases htO
      · rw [lookupClient_setClient_ne _ b d _ hdb] at hl'
        exact Or.inl hl'
  | clientDisconnected d =>
    rw [handle_disconnected] at hl
    have hl' : lookupClient (eraseClient t.clients d) b = some c' := hl
    by_cases hdb : b = d
    · subst hdb
      rw [lookupClient_eraseClient_self] at hl'
      cases hl'
    · rw [lookupClient_eraseClient_ne _ b d hdb] at hl'
      exact Or.inl hl'
  | newMessage d tx tn =>
    have hl0 : lookupClient (handleNewMessage t d tx tn).1.clients b = some c' := hl
    cases hld : lookupClient t.clients d with
    | none =>
      rw [nm_unknown t d tx tn hld] at hl0
      exact Or.inl hl0
    | some cd =>
      have hdab : ∀ c₀ : Client, c₀.timedOut = false →
          lookupClient
              (debounceAndBroadcast t d tx tn c₀ (tn - cd.lastMessage)).1.clients b
              = some c' →
            lookupClient t.clients b = some c' ∨ (b = d ∧ c'.lastMessage = tn) := by
        intro c₀ hc₀ hli
        by_cases hdd : tn - cd.lastMessage < MessageDebounce
        · by_cases h3 : 3 ≤ c₀.strikes + 1
          · rw [dab_ban t d tx tn c₀ _ hdd h3] at hli
            have hli' : lookupClient (eraseClient t.clients d) b = some c' := hli
            by_cases hdb : b = d
            · subst hdb
              rw [lookupClient_eraseClient_self] at hli'
              cases hli'
            · rw [lookupClient_eraseClient_ne _ b d hdb] at hli'
              exact Or.inl hli'
          · rw [dab_strike t d tx tn c₀ _ hdd (not_le.mp h3)] at hli
            have hli' : lookupClient
                (setClient t.clients d ⟨tn, true, c₀.strikes + 1⟩) b = some c' := hli
            by_cases hdb : b = d
            · subst hdb
              rw [lookupClient_setClient_self] at hli'
              cases hli'
              exact Or.inr ⟨rfl, rfl⟩
            · rw [lookupClient_setClient_ne _ b d _ hdb] at hli'
              exact Or.inl hli'
        · rw [dab_broadcast t d tx tn c₀ _ (not_lt.mp hdd)] at hli
          have hli' : lookupClient
              (setClient t.clients d { c₀ with lastMessage := tn }) b = some c' := hli
          by_cases hdb : b = d
          · subst hdb
            rw [lookupClient_setClient_self] at hli'
            cases hli'
            have hfO : c₀.timedOut = true := htO
            rw [hc₀] at hfO
            cases hfO
          · rw [lookupClient_setClient_ne _ b d _ hdb] at hli'
            exact Or.inl hli'
      cases htd : cd.timedOut with
      | false =>
        rw [nm_active t d tx tn cd hld htd] at hl0
        rcases hdab cd htd hl0 with h | ⟨rfl, hlm⟩
        · exact Or.inl h
        · exact Or.inr ⟨tx, tn, rfl, hlm⟩
      | true =>
        by_cases h5 : TimeoutDuration ≤ tn - cd.lastMessage
        · rw [nm_clear t d tx tn cd hld htd h5] at hl0
          have hl1 : lookupClient
              (debounceAndBroadcast t d tx tn ⟨cd.lastMessage, false, cd.strikes⟩
                (tn - cd.lastMessage)).1.clients b = some c' := hl0
          rcases hdab ⟨cd.lastMessage, false, cd.strikes⟩ rfl hl1 with h | ⟨rfl, hlm⟩
          · exact Or.inl h
          · exact Or.inr ⟨tx, tn, rfl, hlm⟩
        · rw [nm_wait t d tx tn cd hld htd (not_le.mp h5)] at hl0
          exact Or.inl hl0

/-- C10: `TimeoutDuration` (5) is at least `MessageDebounce` (1), so a
`NewMessage` that ends a timeout (elapsed at least `TimeoutDuration`,
measured from the `lastMessage` stored when the timeout began) always
also passes the debounce check made with the same elapsed value and is
broadcast with strikes unchanged; every reachable record carries at most
2 strikes; and a timed-out record's `lastMessage` is always the clock
reading of the event that began its current timeout. -/
theorem c10_fallthrough_never_strikes (s : ServerState) (a : Addr)
    (text : String) (now : ℚ) (c : Client)
    (h1 : lookupClient s.clients a = some c) (h2 : c.timedOut = true)
    (h3 : TimeoutDuration ≤ now - c.lastMessage) :
    MessageDebounce ≤ TimeoutDuration ∧
    handleNewMessage s a text now
      = (⟨setClient s.clients a ⟨now, false, c.strikes⟩, s.bannedClients⟩,
         Effect.logUnbanned a :: Effect.logSendMessage a text ::
           (setClient s.clients a ⟨now, false, c.strikes⟩).map
             (fun p => Effect.write p.1 (Payload.chat text))) ∧
    (∀ t : ServerState, Reachable t → ∀ p ∈ t.clients, p.2.strikes ≤ 2) ∧
    (∀ (t : ServerState) (e : Event) (b : Addr) (c' : Client),
        lookupClient (handle t e).1.clients b = some c' → c'.timedOut = true →
          lookupClient t.clients b = some c' ∨
            ∃ tx tn, e = Event.newMessage b tx tn ∧ c'.lastMessage = tn) := by
  refine ⟨by norm_num [MessageDebounce, TimeoutDuration], ?_, ?_, ?_⟩
  · have hd : ¬ now - c.lastMessage < MessageDebounce := by
      rw [MessageDebounce]
      rw [TimeoutDuration] at h3
      intro hlt
      linarith
    rw [nm_clear s a text now c h1 h2 h3,
      dab_broadcast s a text now ⟨c.lastMessage, false, c.strikes⟩ _ (not_lt.mp hd)]
  · intro t ht p hp
    exact ((reachable_inv ht).1 p hp).2
  · exact timedOut_record_began_now

theorem c10_fallthrough_never_strikes_witness :
    MessageDebounce ≤ TimeoutDuration ∧
    handleNewMessage ⟨[("a", ⟨1, true, 2⟩)], []⟩ "a" "m" 7
      = (⟨setClient [("a", ⟨1, true, 2⟩)] "a" ⟨7, false, 2⟩, []⟩,
         Effect.logUnbanned "a" :: Effect.logSendMessage "a" "m" ::
           (setClient [("a", ⟨1, true, 2⟩)] "a" ⟨7, false, 2⟩).map
             (fun p => Effect.write p.1 (Payload.chat "m"))) ∧
    (∀ t : ServerState, Reachable t → ∀ p ∈ t.clients, p.2.strikes ≤ 2) ∧
    (∀ (t : ServerState) (e : Event) (b : Addr) (c' : Client),
        lookupClient (handle t e).1.clients b = some c' → c'.timedOut = true →
          lookupClient t.clients b = some c' ∨
            ∃ tx tn, e = Event.newMessage b tx tn ∧ c'.lastMessage = tn) :=
  c10_fallthrough_never_strikes ⟨[("a", ⟨1, true, 2⟩)], []⟩ "a" "m" 7 ⟨1, true, 2⟩
    (by simp [lookupClient]) rfl (by norm_num [TimeoutDuration])

/-- C4: the strike escalation scenario.  A client connects and sends one
accepted message at `t0`; a message at `t1` within `MessageDebounce` of
the accepted timestamp yields the strike-1 notice and the timed-out
flag; a message at `t2` still within `TimeoutDuration` yields a wait
notice with no strike change; the message at `t3` past the timeout is
accepted (resetting the accepted timestamp), so the violation at `t4`
within `MessageDebounce` of it yields the strike-2 notice and the flag
again; after the analogous accepted message at `t5`, the third
qualifying violation at `t6` bans the address, closes the connection and
removes the record from `clients`. -/
theorem c4_strike_escalation_to_ban (x : Addr)
    (m0 m1 m2 m3 m4 m5 m6 : String) (t0 t1 t2 t3 t4 t5 t6 : ℚ)
    (h0 : MessageDebounce ≤ t0)
    (h1 : t1 - t0 < MessageDebounce)
    (h2 : t2 - t1 < TimeoutDuration)
    (h3 : TimeoutDuration ≤ t3 - t1)
    (h4 : t4 - t3 < MessageDebounce)
    (h5 : TimeoutDuration ≤ t5 - t4)
    (h6 : t6 - t5 < MessageDebounce) :
    run ServerState.init [Event.clientConnected x, Event.newMessage x m0 t0]
        = ⟨[(x, ⟨t0, false, 0⟩)], []⟩ ∧
    handleNewMessage ⟨[(x, ⟨t0, false, 0⟩)], []⟩ x m1 t1
        = (⟨[(x, ⟨t1, true, 1⟩)], []⟩,
           [Effect.logStrike x 1,
            Effect.write x (Payload.strikeNotice 1 TimeoutDuration)]) ∧
    handleNewMessage ⟨[(x, ⟨t1, true, 1⟩)], []⟩ x m2 t2
        = (⟨[(x, ⟨t1, true, 1⟩)], []⟩,
           [Effect.logStillBanned x,
            Effect.write x (Payload.timedOutNotice (TimeoutDuration - (t2 - t1)))]) ∧
    handleNewMessage ⟨[(x, ⟨t1, true, 1⟩)], []⟩ x m3 t3
        = (⟨[(x, ⟨t3, false, 1⟩)], []⟩,
           [Effect.logUnbanned x, Effect.logSendMessage x m3,
            Effect.write x (Payload.chat m3)]) ∧
    handleNewMessage ⟨[(x, ⟨t3, false, 1⟩)], []⟩ x m4 t4
        = (⟨[(x, ⟨t4, true, 2⟩)], []⟩,
           [Effect.logStrike x 2,
            Effect.write x (Payload.strikeNotice 2 TimeoutDuration)]) ∧
    handleNewMessage ⟨[(x, ⟨t4, true, 2⟩)], []⟩ x m5 t5
        = (⟨[(x, ⟨t5, false, 2⟩)], []⟩,
           [Effect.logUnbanned x, Effect.logSendMessage x m5,
            Effect.write x (Payload.chat m5)]) ∧
    handleNewMessage ⟨[(x, ⟨t5, false, 2⟩)], []⟩ x m6 t6
        = (⟨[], [x]⟩, [Effect.write x Payload.banNotice, Effect.close x]) := by
  have hd0 : ¬ t0 - 0 < MessageDebounce := by
    rw [sub_zero]
    exact not_lt.mpr h0
  have hd0' : ¬ t0 < MessageDebounce := not_lt.mpr h0
  have hd3 : ¬ t3 - t1 < MessageDebounce := by
    rw [MessageDebounce]
    rw [TimeoutDuration] at h3
    intro hlt
    linarith
  have hd5 : ¬ t5 - t4 < MessageDebounce := by
    rw [MessageDebounce]
    rw [TimeoutDuration] at h5
    intro hlt
    linarith
  have hw2 : ¬ TimeoutDuration ≤ t2 - t1 := not_le.mpr h2
  refine ⟨?_, ?_, ?_, ?_, ?_, ?_, ?_⟩
  · show (handle (handle ServerState.init (Event.clientConnected x)).1
        (Event.newMessage x m0 t0)).1 = _
    simp [handle, ServerState.init, handleNewMessage, lookupClient,
      debounceAndBroadcast, setClient, eraseClient, hd0, hd0']
  · simp [handleNewMessage, lookupClient, debounceAndBroadcast, setClient,
      eraseClient, h1]
  · simp [handleNewMessage, lookupClient, debounceAndBroadcast, setClient,
      eraseClient, hw2]
  · simp [handleNewMessage, lookupClient, debounceAndBroadcast, setClient,
      eraseClient, h3, hd3]
  · simp [handleNewMessage, lookupClient, debounceAndBroadcast, setClient,
      eraseClient, h4]
  · simp [handleNewMessage, lookupClient, debounceAndBroadcast, setClient,
      eraseClient, h5, hd5]
  · simp [handleNewMessage, lookupClient, debounceAndBroadcast, setClient,
      eraseClient, h6]

theorem c4_strike_escalation_to_ban_witness :
    handleNewMessage ⟨[("x", ⟨22, false, 2⟩)], []⟩ "x" "g" (45 / 2)
      = (⟨[], ["x"]⟩, [Effect.write "x" Payload.banNotice, Effect.close "x"]) :=
  (c4_strike_escalation_to_ban "x" "a" "b" "c" "d" "e" "f" "g"
      10 (21 / 2) 11 16 (33 / 2) 22 (45 / 2)
      (by norm_num [MessageDebounce]) (by norm_num [MessageDebounce])
      (by norm_num [TimeoutDuration]) (by norm_num [TimeoutDuration])
      (by norm_num [MessageDebounce]) (by norm_num [TimeoutDuration])
      (by norm_num [MessageDebounce])).2.2.2.2.2.2

end TcpChat
